import Mathlib

/-!
Verification development for the `dynamic-syscall` utility (src/src/main.rs).

The program invokes raw operating-system syscalls either from typed CLI
arguments or from a small line-oriented script.  We shallowly embed the
argument caster (`CastArg::new`), the CLI argument parser (`parse_args`),
the script interpreter (`add_call`, `lex`, `interpret`) and the execution
pipeline, and prove / refute the specification claims about them.

Modelling conventions:
  * Rust `usize`/`u64` machine words are `Nat`, with the 64-bit bound made
    explicit where `str::parse::<usize>` enforces it (overflow is a parse
    error in Rust, so parsed values are always `< 2 ^ 64`).
  * Memory addresses produced by `Box::leak(...).as_ptr()` are abstracted
    by an address oracle `a : String → Nat` mapping the leaked text to its
    address.
  * `Sysno::new` (platform syscall table lookup) is abstracted by an
    oracle `k : Nat → Bool` telling which syscall numbers resolve.
  * The raw `syscall` invocation is abstracted by a result oracle
    `s : Nat → List Nat → Except Nat Nat` (errno or signed return code).
  * Rust panics (`panic!`, `.expect`) abort the process; in this pure
    embedding they surface as `Except.error` with the panic message, which
    in particular aborts the rest of the pipeline exactly as a panic does.
  * Rust strings are treated at `Char` granularity (`String.data`).
-/

deriving instance DecidableEq for Except

/-- Rust `str::parse::<usize>` digit accumulation (radix 10). -/
def digitsToNat (ds : List Char) : Nat :=
  ds.foldl (fun acc c => acc * 10 + (c.toNat - 48)) 0

/-- The number of values of a 64-bit machine word (`usize::MAX + 1`). -/
def usizeBound : Nat := 2 ^ 64

/-- Rust `str::parse::<usize>`: an optional leading `+`, then one or more
ASCII digits, value within the 64-bit range; anything else is a parse
error (`none`). A leading `-` is rejected for unsigned targets. -/
def parseUsize (s : List Char) : Option Nat :=
  let t := match s with
    | '+' :: rest => rest
    | _ => s
  if t.isEmpty then none
  else if t.all Char.isDigit then
    let v := digitsToNat t
    if v < usizeBound then some v else none
  else none

/-- `CastArg` from main.rs lines 15-22: a typed argument, either the
address of a leaked string buffer or a 64-bit number. -/
inductive CastArg where
  | string (addr : Nat)
  | u64 (n : Nat)
deriving DecidableEq, Repr

/-- The type-hint strings of the two `CastArg` variants, as produced by
iterating the variants with `get_type_hint_str` (main.rs lines 72-77):
`"s"` for `String`, `"n"` for `U64`. -/
def typeHintChars : List Char := ['s', 'n']

/-- `CastArg::is_type_hint` (main.rs lines 80-85): lowercases the first
character of the argument and compares it against every variant hint.
The Rust code unwraps the first character (panicking on an empty string);
`CastArg::new` only calls it after checking the length, so the `none`
branch is unreachable there and modelled as `false`. -/
def is_type_hint (arg : String) : Bool :=
  match arg.data.head? with
  | none => false
  | some c => typeHintChars.any fun h => c.toLower == h

def tooShortMsg (arg : String) : String :=
  "Cannot process arg " ++ arg ++ " as it is too short."

def unknownHintMsg (arg : String) : String :=
  "Type hint for arg " ++ arg ++ " is unknown!"

def failCharMsg (arg : String) : String :=
  "Failed to get first character on argument " ++ arg ++ "!"

def parseFailMsg (owned : String) : String :=
  "Failed to parse arg " ++ owned ++ "."

/-- `CastArg::new` (main.rs lines 26-61).  `a` is the address oracle for
the leaked string buffer (`Box::leak(arg[2..]...).as_ptr()`). -/
def castArg (a : String → Nat) (arg : String) : Except String CastArg :=
  if arg.length < 3 then .error (tooShortMsg arg)
  else if !is_type_hint arg then .error (unknownHintMsg arg)
  else
    match arg.data.head? with
    | some first =>
      let owned : String := String.mk (arg.data.drop 2)
      if first == 's' then .ok (.string (a owned))
      else if first == 'n' then
        match parseUsize owned.data with
        | some v => .ok (.u64 v)
        | none => .error (parseFailMsg owned)
      else .error (failCharMsg arg)
    | none => .error "There is a problem, what problem? I dont know."

/-- `CastArg::get_usize` (main.rs lines 64-69): the machine word actually
passed to the syscall. -/
def getUsize : CastArg → Nat
  | .string addr => addr
  | .u64 n => n

/-- The per-argument loop of `parse_args` (main.rs lines 109-117): each
CLI token must contain the `:` separator (`splitn(2, ':')` yields two
pieces exactly when a `:` occurs), then is cast with `CastArg::new`; the
first failure aborts.  `idx` is the 0-based `enumerate` counter used in
the missing-hint message. -/
def castAll (a : String → Nat) : Nat → List String → Except String (List CastArg)
  | _, [] => .ok []
  | idx, arg :: rest =>
    if arg.data.contains ':' then
      match castArg a arg with
      | .error e => .error e
      | .ok c =>
        match castAll a (idx + 1) rest with
        | .error e => .error e
        | .ok cs => .ok (c :: cs)
    else .error ("Argument number " ++ toString (idx + 1) ++ " is missing a type-hint.")

/-- `parse_args` (main.rs lines 89-148).  `k` is the `Sysno::new`
resolution oracle.  The returned word list is what `syscall_args!`
receives: after `usize_args.truncate(6)` at most the first six cast
words survive (`List.take 6`). -/
def parse_args (a : String → Nat) (k : Nat → Bool) :
    List String → Except String (Nat × List Nat)
  | [] => .error "Not enough arguments!"
  | [_] => .error "Not enough arguments!"
  | _prog :: sysnoStr :: rest =>
    match parseUsize sysnoStr.data with
    | none => .error ("Failed to parse syscall number from " ++ sysnoStr ++ ".")
    | some n =>
      if k n then
        match castAll a 0 rest with
        | .error e => .error e
        | .ok cs => .ok (n, (cs.map getUsize).take 6)
      else .error ("System call " ++ toString n ++ " unknown!")

/-- `begin_arguments` (main.rs lines 365-380): parse the CLI arguments and,
only on success, perform the one syscall with the parsed number and words.
`s` is the raw-syscall result oracle. -/
def cliRun (a : String → Nat) (k : Nat → Bool) (s : Nat → List Nat → Except Nat Nat)
    (args : List String) : Except String (Nat × List Nat × Except Nat Nat) :=
  match parse_args a k args with
  | .error e => .error e
  | .ok (n, ws) => .ok (n, ws, s n ws)

example : castArg (fun _ => 7) "s:hi" = .ok (.string 7) := by decide
example : castArg (fun _ => 7) "n:12" = .ok (.u64 12) := by decide
example : castArg (fun _ => 7) "n:-1" = .error (parseFailMsg "-1") := by decide
example : castArg (fun _ => 7) "S:hi" = .error (failCharMsg "S:hi") := by decide
example : castArg (fun _ => 7) "x" = .error (tooShortMsg "x") := by decide

/-- `Token` (main.rs lines 184-198): the logos-generated token kinds of one
script line. The Rust enum carries no payload; the lexer exposes the
matched slice separately (`lexer.slice()`), so here each non-keyword token
carries its slice: for `Number` the signed-digit text matched by
`[+-]?[\d]+`, for `String` the quoted text matched by `\"([^\"]*)\"`
(quotes included, as in the Rust slice). -/
inductive Token where
  | syscall
  | number (slice : String)
  | string (slice : String)
deriving DecidableEq, Repr

/-- `parse_string_literal` (main.rs lines 201-208): strip the surrounding
quotes and decode the `\n` / `\t` escapes; a slice shorter than 2
characters panics. -/
def parse_string_literal (s : String) : Except String String :=
  if s.length < 2 then
    .error "Failed to slice string to remove quotes. String len is < 2."
  else
    .ok (((String.mk ((s.data.drop 1).dropLast)).replace "\\n" "\n").replace "\\t" "\t")

/-- One entry of `syscall_buffer` in `add_call` (main.rs line 244): a
non-keyword token together with its payload — the raw slice for a
`Number`, the already-unquoted text for a `String`.  The buffer also
records the token index in the Rust code, but that index is never read
afterwards, so it is not modelled. -/
inductive ScriptArg where
  | num (slice : String)
  | str (text : String)
deriving DecidableEq, Repr

/-- The token loop of `add_call` (main.rs lines 252-274): every `Syscall`
keyword token is skipped (it only sets `is_syscall`), `Number` tokens are
buffered with their slice, `String` tokens are buffered after
`parse_string_literal` (whose panic aborts the scan). -/
def buildBuffer : List Token → Except String (List ScriptArg)
  | [] => .ok []
  | Token.syscall :: rest => buildBuffer rest
  | Token.number s :: rest =>
    match buildBuffer rest with
    | .error e => .error e
    | .ok b => .ok (ScriptArg.num s :: b)
  | Token.string s :: rest =>
    match parse_string_literal s with
    | .error e => .error e
    | .ok p =>
      match buildBuffer rest with
      | .error e => .error e
      | .ok b =>
        .ok (ScriptArg.str p :: b)

/-- The casting loop of `add_call` (main.rs lines 286-305): each buffered
`Number` slice is parsed with `slice.parse::<usize>()` (panicking on
failure), each buffered `String` is leaked and replaced by its address
(oracle `a`), producing `sc_final_args` in buffer order. -/
def castTokens (a : String → Nat) : List ScriptArg → Except String (List Nat)
  | [] => .ok []
  | ScriptArg.num s :: rest =>
    match parseUsize s.data with
    | none => .error "Failed to parse number"
    | some v =>
      match castTokens a rest with
      | .error e => .error e
      | .ok ws => .ok (v :: ws)
  | ScriptArg.str t :: rest =>
    match castTokens a rest with
    | .error e => .error e
    | .ok ws => .ok (a t :: ws)

/-- The argument-count panic message of `add_call` (main.rs line 279). -/
def countErrMsg : String := "Syscall must have at least 1 and at most 6 arguments."

/-- The `expect` message on `Sysno::new` in `add_call` (main.rs line 311). -/
def sysnoPanicMsg : String := "Failed to parse syscall number"

/-- One deferred syscall invocation: the closure pushed onto `calls` by
`add_call` (main.rs lines 345-347) captures the resolved syscall number,
the remaining argument words and the originating line number. -/
structure DeferredCall where
  sysno : Nat
  args : List Nat
  line : Nat
deriving DecidableEq, Repr

/-- `add_call` (main.rs lines 243-349) for one line of tokens.  Returns
`some` deferred call when the line is a syscall statement, `none` when the
line contains no `syscall` keyword (silently skipped), and an error for
any of the panics: string-literal slicing, the argument-count bound
(`buffer length 0 or > 7`), number parsing, and `Sysno::new` resolution
(oracle `k`).  The `sc_final_args[0]` indexing panic on an empty buffer is
unreachable because of the count check. -/
def addCall (a : String → Nat) (k : Nat → Bool) (tokens : List Token) (line : Nat) :
    Except String (Option DeferredCall) :=
  match buildBuffer tokens with
  | .error e => .error e
  | .ok buf =>
    let isSys := tokens.contains Token.syscall
    if isSys && (buf.length > 7 || buf.length == 0) then .error countErrMsg
    else if isSys then
      match castTokens a buf with
      | .error e => .error e
      | .ok [] => .error "index out of bounds"
      | .ok (w :: ws) =>
        if k w then .ok (some ⟨w, ws, line⟩) else .error sysnoPanicMsg
    else .ok none

/-- Observable events of a script run: a line finishing its lex/parse step
in pass one, or a deferred call being executed (with the invocation
result) in pass two. -/
inductive Event where
  | lexed (line : Nat)
  | executed (line : Nat) (sysno : Nat) (args : List Nat) (result : Except Nat Nat)
deriving DecidableEq, Repr

/-- `invoke_syscall_interpret` (main.rs lines 352-362) as an event: the
raw call is performed through the result oracle `s` and its outcome
(return code or errno) is reported; both outcomes return normally, so
execution continues afterwards either way. -/
def execEvent (s : Nat → List Nat → Except Nat Nat) (c : DeferredCall) : Event :=
  Event.executed c.line c.sysno c.args (s c.sysno c.args)

/-- `interpret` (main.rs lines 234-240): execute every deferred call, in
order, each producing its execution event. -/
def interpret (s : Nat → List Nat → Except Nat Nat) : List DeferredCall → List Event
  | [] => []
  | c :: cs => execEvent s c :: interpret s cs

/-- The line loop of `lex` (main.rs lines 216-228) starting at line number
`i`: each line is parsed with `add_call` (a panic aborts the whole run), a
`lexed` event marks the line's first-pass processing, and the produced
deferred calls accumulate in file order.  The Rust code passes `idx + 1`
as the line number, so the top-level entry starts at `i = 1`. -/
def lexFrom (a : String → Nat) (k : Nat → Bool) (i : Nat) :
    List (List Token) → Except String (List Event × List DeferredCall)
  | [] => .ok ([], [])
  | ts :: rest =>
    match addCall a k ts i with
    | .error e => .error e
    | .ok c =>
      match lexFrom a k (i + 1) rest with
      | .error e => .error e
      | .ok (evs, cs) =>
        .ok (Event.lexed i :: evs,
             match c with
             | some d => d :: cs
             | none => cs)

/-- `lex` followed by `interpret` (main.rs lines 211-240): pass one parses
every line of the file (the input is the per-line token streams of the
non-comment lines), pass two executes the accumulated deferred calls.  The
trace concatenates the pass-one events with the pass-two events. -/
def runScript (a : String → Nat) (k : Nat → Bool) (s : Nat → List Nat → Except Nat Nat)
    (lines : List (List Token)) : Except String (List Event) :=
  match lexFrom a k 1 lines with
  | .error e => .error e
  | .ok (evs, cs) => .ok (evs ++ interpret s cs)

/-- The expected pass-one trace of an `n`-line script: one `lexed` event
per line, in file order, lines numbered from 1. -/
def lexEvents (n : Nat) : List Event := (List.range n).map fun i => Event.lexed (i + 1)

/-- The execution events of a script run; an aborted run executed
nothing. -/
def executedOf : Except String (List Event) → List Event
  | .error _ => []
  | .ok tr =>
    tr.filter fun e =>
      match e with
      | Event.executed _ _ _ _ => true
      | _ => false

example :
    addCall (fun _ => 9) (fun n => n == 1) [Token.syscall, Token.number "1", Token.string "\"hi\""] 1
      = .ok (some ⟨1, [9], 1⟩) := by decide
example :
    addCall (fun _ => 9) (fun n => n == 1) [Token.number "2", Token.number "3"] 1 = .ok none := by
  decide
example :
    runScript (fun _ => 9) (fun n => n == 1) (fun _ _ => .ok 0)
      [[Token.syscall, Token.number "1", Token.number "0"]]
      = .ok [Event.lexed 1, Event.executed 1 1 [0] (.ok 0)] := by decide

/-! ## Helper lemmas -/

theorem interpret_eq_map (s : Nat → List Nat → Except Nat Nat) (cs : List DeferredCall) :
    interpret s cs = cs.map (execEvent s) := by
  induction cs with
  | nil => rfl
  | cons c cs ih => simp [interpret, ih]

theorem lexFrom_events (a : String → Nat) (k : Nat → Bool) :
    ∀ (lines : List (List Token)) (i : Nat) (evs : List Event) (cs : List DeferredCall),
    lexFrom a k i lines = .ok (evs, cs) →
    evs = (List.range lines.length).map fun j => Event.lexed (i + j) := by
  intro lines
  induction lines with
  | nil =>
    intro i evs cs h
    simp [lexFrom] at h
    simp [h.1]
  | cons ts rest ih =>
    intro i evs cs h
    unfold lexFrom at h
    cases hac : addCall a k ts i with
    | error e => rw [hac] at h; simp at h
    | ok c =>
      rw [hac] at h
      cases hlf : lexFrom a k (i + 1) rest with
      | error e => rw [hlf] at h; simp at h
      | ok p =>
        obtain ⟨evs', cs'⟩ := p
        rw [hlf] at h
        simp at h
        have hev := ih (i + 1) evs' cs' hlf
        rw [← h.1, hev]
        rw [List.length_cons, List.range_succ_eq_map, List.map_cons, List.map_map]
        refine congrArg₂ (· :: ·) (by rw [Nat.add_zero]) ?_
        apply List.map_congr_left
        intro j _
        simp only [Function.comp_apply]
        congr 1
        omega

/-! ## Claim C1 -/

/-- C1 (code bug): casting a negative numeric literal does NOT succeed.
The spec (and the comment on the `U64` variant in main.rs lines 20-21)
require `n:-1` to be reinterpreted bit-for-bit into the all-ones machine
word, but `CastArg::new` parses the value with `str::parse::<usize>`,
which rejects a leading minus sign, so `n:-1` is a cast error in CLI
mode; likewise a `-`-signed `Number` token in a script panics in
`add_call` at `slice.parse::<usize>()`. -/
theorem negative_literal_is_rejected :
    castArg (fun _ => 0) "n:-1" = .error (parseFailMsg "-1") ∧
    addCall (fun _ => 0) (fun _ => true)
      [Token.syscall, Token.number "60", Token.number "-1"] 1
      = .error "Failed to parse number" := by
  decide

/-! ## Claim C8 -/

/-- C8: a token shorter than 3 characters, or whose type-hint character
is not `s` or `n`, always makes `CastArg::new` return an error (never a
`TypedArgument`), and the error message contains the offending token. -/
theorem short_or_bad_hint_errors (a : String → Nat) (arg : String)
    (h : arg.length < 3 ∨ ∀ c, arg.data.head? = some c → c ≠ 's' ∧ c ≠ 'n') :
    ∃ pre post, castArg a arg = .error (pre ++ arg ++ post) := by
  unfold castArg
  by_cases hlen : arg.length < 3
  · exact ⟨"Cannot process arg ", " as it is too short.", by rw [if_pos hlen]; rfl⟩
  · rw [if_neg hlen]
    have hd : ∃ c cs, arg.data = c :: cs := by
      cases hdata : arg.data with
      | nil =>
        exfalso
        apply hlen
        have : arg.length = 0 := by simp [String.length, hdata]
        omega
      | cons c cs => exact ⟨c, cs, rfl⟩
    obtain ⟨c, cs, hdata⟩ := hd
    have hc : c ≠ 's' ∧ c ≠ 'n' := by
      rcases h with h | h
      · exact absurd h hlen
      · exact h c (by rw [hdata]; rfl)
    by_cases hth : is_type_hint arg
    · refine ⟨"Failed to get first character on argument ", "!", ?_⟩
      rw [hth]
      simp only [Bool.not_true, Bool.false_eq_true, if_false]
      rw [hdata]
      simp only [List.head?_cons]
      have hs : (c == 's') = false := by simp [hc.1]
      have hn : (c == 'n') = false := by simp [hc.2]
      rw [hs, hn]
      rfl
    · refine ⟨"Type hint for arg ", " is unknown!", ?_⟩
      simp only [Bool.not_eq_true] at hth
      rw [hth]
      rfl

/-- Witness for C8 at the concrete too-short token `x`. -/
theorem short_or_bad_hint_errors_witness :
    ∃ pre post, castArg (fun _ => 0) "x" = .error (pre ++ "x" ++ post) :=
  short_or_bad_hint_errors (fun _ => 0) "x" (Or.inl (by decide))

/-! ## Claim C9 -/

/-- C9: an uppercase hint `S` or `N` passes the case-insensitive
`is_type_hint` check, but the case-sensitive dispatch in `CastArg::new`
matches neither `s` nor `n` and falls through to the error branch, so the
token is rejected rather than cast. -/
theorem uppercase_hint_rejected (a : String → Nat) (c : Char) (t : String)
    (hc : c = 'S' ∨ c = 'N') (ht : 2 ≤ t.length) :
    is_type_hint (String.mk (c :: t.data)) = true ∧
    castArg a (String.mk (c :: t.data)) = .error (failCharMsg (String.mk (c :: t.data))) := by
  have hth : is_type_hint (String.mk (c :: t.data)) = true := by
    rcases hc with rfl | rfl <;> rfl
  refine ⟨hth, ?_⟩
  have htd : 2 ≤ t.data.length := ht
  have hlen : ¬ (String.mk (c :: t.data)).length < 3 := by
    simp only [String.length, List.length_cons]
    omega
  unfold castArg
  rw [if_neg hlen, hth]
  simp only [Bool.not_true, Bool.false_eq_true, if_false]
  have hs : (c == 's') = false := by rcases hc with rfl | rfl <;> rfl
  have hn : (c == 'n') = false := by rcases hc with rfl | rfl <;> rfl
  simp only [List.head?_cons, hs, hn]
  rfl

/-- Witness for C9 at the concrete token `S:abc`. -/
theorem uppercase_hint_rejected_witness :
    is_type_hint (String.mk ('S' :: (":abc").data)) = true ∧
    castArg (fun _ => 0) (String.mk ('S' :: (":abc").data))
      = .error (failCharMsg (String.mk ('S' :: (":abc").data))) :=
  uppercase_hint_rejected (fun _ => 0) 'S' ":abc" (Or.inl rfl) (by decide)

/-! ## Claim C3 -/

/-- C3: for a line recognized as a syscall statement (the `syscall`
keyword occurs among its tokens), the full non-keyword token run
(`syscall_buffer`: syscall number plus arguments) must total between 1
and 7 tokens inclusive for the statement to be accepted; a run of 0 or
of more than 7 tokens always hits the argument-count panic, and a
statement with exactly 6 arguments (run of 7) is accepted. -/
theorem argCount_bounds (a : String → Nat) (k : Nat → Bool) (ts : List Token) (ln : Nat)
    (buf : List ScriptArg) (hb : buildBuffer ts = .ok buf)
    (hs : ts.contains Token.syscall = true) :
    ((∃ d, addCall a k ts ln = .ok (some d)) → 1 ≤ buf.length ∧ buf.length ≤ 7) ∧
    (buf.length = 0 ∨ 7 < buf.length → addCall a k ts ln = .error countErrMsg) ∧
    (k 1 = true →
      addCall a k [Token.syscall, Token.number "1", Token.number "2", Token.number "3",
        Token.number "4", Token.number "5", Token.number "6", Token.number "7"] ln
        = .ok (some ⟨1, [2, 3, 4, 5, 6, 7], ln⟩)) := by
  have herr : buf.length = 0 ∨ 7 < buf.length → addCall a k ts ln = .error countErrMsg := by
    intro hrange
    unfold addCall
    rw [hb]
    have hcond : (ts.contains Token.syscall && (buf.length > 7 || buf.length == 0)) = true := by
      rw [hs]
      rcases hrange with h0 | h7
      · simp [h0]
      · simp [h7]
    simp only [hcond, if_true]
  refine ⟨?_, herr, ?_⟩
  · rintro ⟨d, hd⟩
    by_contra hcon
    have hrange : buf.length = 0 ∨ 7 < buf.length := by omega
    rw [herr hrange] at hd
    exact absurd hd (by simp)
  · intro hk1
    have step : addCall a k [Token.syscall, Token.number "1", Token.number "2", Token.number "3",
        Token.number "4", Token.number "5", Token.number "6", Token.number "7"] ln
        = if k 1 then .ok (some ⟨1, [2, 3, 4, 5, 6, 7], ln⟩) else .error sysnoPanicMsg := rfl
    rw [step, if_pos hk1]

/-- Witness for C3: a bare `syscall` line (run of 0) and a nine-token
line (run of 8) hit the count error; a `syscall` statement with a number
and six arguments (run of 7) is accepted. -/
theorem argCount_bounds_witness :
    addCall (fun _ => 0) (fun n => n == 1) [Token.syscall] 3 = .error countErrMsg ∧
    addCall (fun _ => 0) (fun n => n == 1) [Token.syscall, Token.number "1", Token.number "2",
      Token.number "3", Token.number "4", Token.number "5", Token.number "6", Token.number "7",
      Token.number "8"] 3 = .error countErrMsg ∧
    addCall (fun _ => 0) (fun n => n == 1) [Token.syscall, Token.number "1", Token.number "2",
      Token.number "3", Token.number "4", Token.number "5", Token.number "6", Token.number "7"] 3
      = .ok (some ⟨1, [2, 3, 4, 5, 6, 7], 3⟩) := by
  refine ⟨?_, ?_, ?_⟩
  · exact (argCount_bounds (fun _ => 0) (fun n => n == 1) [Token.syscall] 3 [] rfl rfl).2.1
      (Or.inl rfl)
  · exact (argCount_bounds (fun _ => 0) (fun n => n == 1) [Token.syscall, Token.number "1",
      Token.number "2", Token.number "3", Token.number "4", Token.number "5", Token.number "6",
      Token.number "7", Token.number "8"] 3
      [ScriptArg.num "1", ScriptArg.num "2", ScriptArg.num "3", ScriptArg.num "4",
        ScriptArg.num "5", ScriptArg.num "6", ScriptArg.num "7", ScriptArg.num "8"]
      rfl rfl).2.1 (Or.inr (by decide))
  · exact (argCount_bounds (fun _ => 0) (fun n => n == 1) [Token.syscall] 3 [] rfl rfl).2.2 rfl

/-! ## Claim C4 -/

/-- C4 counterexample: the claim says a deferred statement is produced
if and only if the line's FIRST token is the `syscall` keyword, but
`add_call` sets `is_syscall` when the keyword occurs anywhere: the line
`1 syscall 0` (first token a Number) still produces a deferred call. -/
theorem statement_without_leading_keyword :
    addCall (fun _ => 0) (fun n => n == 1) [Token.number "1", Token.syscall, Token.number "0"] 5
      = .ok (some ⟨1, [0], 5⟩) ∧
    List.head? [Token.number "1", Token.syscall, Token.number "0"] ≠ some Token.syscall := by
  decide

/-- C4 amended: a deferred syscall statement is produced if and only if
the `syscall` keyword occurs anywhere among the line's tokens (and the
count/parse/resolution checks pass); the syscall identifier is the value
of the first buffered non-keyword token; a line with no keyword produces
no statement and is silently skipped. -/
theorem statement_iff_keyword_present (a : String → Nat) (k : Nat → Bool)
    (ts : List Token) (ln : Nat) (buf : List ScriptArg)
    (hb : buildBuffer ts = .ok buf) :
    (ts.contains Token.syscall = false → addCall a k ts ln = .ok none) ∧
    (∀ d, addCall a k ts ln = .ok (some d) →
      ts.contains Token.syscall = true ∧
      castTokens a buf = .ok (d.sysno :: d.args) ∧ d.line = ln ∧ k d.sysno = true) := by
  constructor
  · intro hns
    unfold addCall
    rw [hb, hns]
    simp
  · intro d hd
    unfold addCall at hd
    rw [hb] at hd
    cases hcont : ts.contains Token.syscall with
    | false => rw [hcont] at hd; simp at hd
    | true =>
      rw [hcont] at hd
      simp only [Bool.true_and] at hd
      refine ⟨rfl, ?_⟩
      by_cases hcnt : (buf.length > 7 || buf.length == 0) = true
      · rw [if_pos hcnt] at hd; simp at hd
      · rw [if_neg hcnt, if_pos trivial] at hd
        cases hct : castTokens a buf with
        | error e => rw [hct] at hd; simp at hd
        | ok ws =>
          rw [hct] at hd
          match ws, hct with
          | [], hct => simp at hd
          | w :: ws, hct =>
            have hd' : (if k w = true then
                  Except.ok (some (⟨w, ws, ln⟩ : DeferredCall))
                else (Except.error sysnoPanicMsg : Except String (Option DeferredCall)))
                = Except.ok (some d) := hd
            by_cases hk : k w = true
            · rw [if_pos hk] at hd'
              simp only [Except.ok.injEq, Option.some.injEq] at hd'
              subst hd'
              exact ⟨rfl, rfl, hk⟩
            · rw [if_neg hk] at hd'
              simp at hd'

/-- Witness for C4 amended: a keyword-free line is silently skipped, and
for an accepted statement the keyword is indeed among the tokens. -/
theorem statement_iff_keyword_present_witness :
    addCall (fun _ => 0) (fun n => n == 1) [Token.number "9"] 2 = .ok none ∧
    List.contains [Token.syscall, Token.number "1"] Token.syscall = true := by
  constructor
  · exact (statement_iff_keyword_present (fun _ => 0) (fun n => n == 1) [Token.number "9"] 2
      [ScriptArg.num "9"] rfl).1 rfl
  · exact ((statement_iff_keyword_present (fun _ => 0) (fun n => n == 1)
      [Token.syscall, Token.number "1"] 4 [ScriptArg.num "1"] rfl).2
      ⟨1, [], 4⟩ (by decide)).1

/-! ## Claim C2 -/

/-- C2 counterexample: a two-statement script whose second statement has
an unresolvable syscall identifier.  `add_call` resolves the identifier
with `Sysno::new(...).expect(...)` during the first (build) pass, so the
whole run aborts before `interpret` starts: the run ends in the
resolution panic and NO statement is executed — in particular the first,
valid statement is never run, contrary to the claim. -/
theorem later_unknown_sysno_blocks_first :
    runScript (fun _ => 0) (fun n => n == 1) (fun _ _ => .ok 0)
      [[Token.syscall, Token.number "1", Token.number "0"],
       [Token.syscall, Token.number "999"]]
      = .error sysnoPanicMsg ∧
    executedOf (runScript (fun _ => 0) (fun n => n == 1) (fun _ _ => .ok 0)
      [[Token.syscall, Token.number "1", Token.number "0"],
       [Token.syscall, Token.number "999"]]) = [] := by
  decide

/-- C2 amended: when the second statement of a two-line script fails in
`add_call` (as an unresolvable syscall identifier does, via the
`Sysno::new` expect), the failure surfaces during the first pass and
aborts the whole run: the first statement is never executed and no
invocation at all is attempted. -/
theorem unknown_sysno_aborts_before_execution (a : String → Nat) (k : Nat → Bool)
    (s : Nat → List Nat → Except Nat Nat) (t1 t2 : List Token) (c1 : Option DeferredCall)
    (e : String) (h1 : addCall a k t1 1 = .ok c1) (h2 : addCall a k t2 2 = .error e) :
    runScript a k s [t1, t2] = .error e ∧
    executedOf (runScript a k s [t1, t2]) = [] := by
  have hrun : runScript a k s [t1, t2] = .error e := by
    unfold runScript
    unfold lexFrom
    rw [h1]
    unfold lexFrom
    rw [h2]
  exact ⟨hrun, by rw [hrun]; rfl⟩

/-- Witness for C2 amended at a concrete two-line script whose second
line names the unknown syscall number 888. -/
theorem unknown_sysno_aborts_before_execution_witness :
    runScript (fun _ => 0) (fun n => n == 2) (fun _ _ => .ok 0)
      [[Token.syscall, Token.number "2", Token.number "0"],
       [Token.syscall, Token.number "888"]]
      = .error sysnoPanicMsg ∧
    executedOf (runScript (fun _ => 0) (fun n => n == 2) (fun _ _ => .ok 0)
      [[Token.syscall, Token.number "2", Token.number "0"],
       [Token.syscall, Token.number "888"]]) = [] :=
  unknown_sysno_aborts_before_execution (fun _ => 0) (fun n => n == 2) (fun _ _ => .ok 0)
    [Token.syscall, Token.number "2", Token.number "0"]
    [Token.syscall, Token.number "888"]
    (some ⟨2, [0], 1⟩) sysnoPanicMsg (by decide) (by decide)

/-! ## Claim C5 -/

/-- C5: script execution is a strict two-pass sequence.  Any successful
run's trace is exactly the pass-one `lexed` event of every line (in file
order, all of them first) followed by the pass-two execution events,
which execute the deferred calls exactly once each, in the order the
statements appear in the file (`cs.map (execEvent s)` over the call list
built by pass one). -/
theorem two_pass_order (a : String → Nat) (k : Nat → Bool)
    (s : Nat → List Nat → Except Nat Nat) (lines : List (List Token)) (tr : List Event)
    (h : runScript a k s lines = .ok tr) :
    ∃ cs, lexFrom a k 1 lines = .ok (lexEvents lines.length, cs) ∧
      tr = lexEvents lines.length ++ cs.map (execEvent s) := by
  unfold runScript at h
  cases hlf : lexFrom a k 1 lines with
  | error e => rw [hlf] at h; simp at h
  | ok p =>
    obtain ⟨evs, cs⟩ := p
    rw [hlf] at h
    simp only [Except.ok.injEq] at h
    have hev := lexFrom_events a k lines 1 evs cs hlf
    have hevs : evs = lexEvents lines.length := by
      rw [hev]
      unfold lexEvents
      apply List.map_congr_left
      intro j _
      exact congrArg Event.lexed (Nat.add_comm 1 j)
    refine ⟨cs, ?_, ?_⟩
    · rw [← hevs]
    · rw [← h, hevs, interpret_eq_map]

/-- Witness for C5 at a concrete two-line script: both `lexed` events
precede both execution events, and the calls run in file order. -/
theorem two_pass_order_witness :
    lexFrom (fun _ => 9) (fun n => n == 1) 1
      [[Token.syscall, Token.number "1", Token.number "0"],
       [Token.syscall, Token.number "1", Token.string "\"hi\""]]
      = .ok (lexEvents 2, [⟨1, [0], 1⟩, ⟨1, [9], 2⟩]) ∧
    ([Event.lexed 1, Event.lexed 2, Event.executed 1 1 [0] (.ok 3), Event.executed 2 1 [9] (.ok 3)])
      = lexEvents 2 ++ [⟨1, [0], 1⟩, ⟨1, [9], 2⟩].map (execEvent (fun _ _ => .ok 3)) := by
  have h := two_pass_order (fun _ => 9) (fun n => n == 1) (fun _ _ => .ok 3)
    [[Token.syscall, Token.number "1", Token.number "0"],
     [Token.syscall, Token.number "1", Token.string "\"hi\""]]
    [Event.lexed 1, Event.lexed 2, Event.executed 1 1 [0] (.ok 3), Event.executed 2 1 [9] (.ok 3)]
    (by decide)
  obtain ⟨cs, h1, h2⟩ := h
  have hconc : lexFrom (fun _ => 9) (fun n => n == 1) 1
      [[Token.syscall, Token.number "1", Token.number "0"],
       [Token.syscall, Token.number "1", Token.string "\"hi\""]]
      = .ok (lexEvents 2, [⟨1, [0], 1⟩, ⟨1, [9], 2⟩]) := by decide
  rw [hconc] at h1
  simp only [Except.ok.injEq, Prod.mk.injEq] at h1
  rw [← h1.2] at h2
  exact ⟨hconc, h2⟩

/-! ## Claim C6 -/

/-- C6: once execution of the deferred calls has begun, a failed
invocation (the result oracle returns an errno for call `j`) is recorded
in that call's event but does not halt the rest: `interpret` still
produces one execution event for every deferred call, in order. -/
theorem invocation_failure_does_not_halt (s : Nat → List Nat → Except Nat Nat)
    (cs : List DeferredCall) (j : Nat) (hj : j < cs.length) (e : Nat)
    (_hfail : s (cs.get ⟨j, hj⟩).sysno (cs.get ⟨j, hj⟩).args = .error e) :
    (interpret s cs).length = cs.length ∧
    ∀ i (hi : i < cs.length), (interpret s cs)[i]? = some (execEvent s (cs.get ⟨i, hi⟩)) := by
  constructor
  · rw [interpret_eq_map, List.length_map]
  · intro i hi
    rw [interpret_eq_map, List.getElem?_map]
    rw [List.getElem?_eq_getElem hi]
    simp [List.get_eq_getElem]

/-- Witness for C6: with two deferred calls and an oracle failing on the
first, both calls still produce their execution events, in order. -/
theorem invocation_failure_does_not_halt_witness :
    (interpret (fun n _ => if n == 1 then .error 38 else .ok 0)
      [⟨1, [0], 1⟩, ⟨2, [5], 2⟩]).length = 2 ∧
    (interpret (fun n _ => if n == 1 then .error 38 else .ok 0)
      [⟨1, [0], 1⟩, ⟨2, [5], 2⟩])[1]?
      = some (execEvent (fun n _ => if n == 1 then .error 38 else .ok 0) ⟨2, [5], 2⟩) := by
  have h := invocation_failure_does_not_halt (fun n _ => if n == 1 then .error 38 else .ok 0)
    [⟨1, [0], 1⟩, ⟨2, [5], 2⟩] 0 (by decide) 38 (by decide)
  exact ⟨h.1, h.2 1 (by decide)⟩

/-! ## Claim C7 -/

/-- The cast-argument list of `parse_args` has one entry per CLI token
(shape lemma for the truncation claim). -/
theorem castAll_length (a : String → Nat) :
    ∀ (xs : List String) (i : Nat) (cs : List CastArg),
    castAll a i xs = .ok cs → cs.length = xs.length := by
  intro xs
  induction xs with
  | nil => intro i cs h; simp [castAll] at h; simp [← h]
  | cons x xs ih =>
    intro i cs h
    unfold castAll at h
    by_cases hcol : x.data.contains ':' = true
    · rw [if_pos hcol] at h
      cases hca : castArg a x with
      | error e => rw [hca] at h; simp at h
      | ok c =>
        rw [hca] at h
        cases hcs : castAll a (i + 1) xs with
        | error e => rw [hcs] at h; simp at h
        | ok cs' =>
          rw [hcs] at h
          simp only [Except.ok.injEq] at h
          rw [← h]
          simp [ih (i + 1) cs' hcs]
    · rw [if_neg hcol] at h; simp at h

/-- C7: in CLI mode, when more than six typed argument tokens are
supplied, the extra tokens beyond the sixth are silently truncated:
the run succeeds and exactly the first six cast machine words are passed
to the invocation. -/
theorem cli_truncates_to_six (a : String → Nat) (k : Nat → Bool)
    (s : Nat → List Nat → Except Nat Nat) (prog sysnoStr : String) (rest : List String)
    (n : Nat) (cs : List CastArg)
    (hn : parseUsize sysnoStr.data = some n) (hk : k n = true)
    (hcs : castAll a 0 rest = .ok cs) (hlen : 6 < rest.length) :
    cliRun a k s (prog :: sysnoStr :: rest)
      = .ok (n, (cs.map getUsize).take 6, s n ((cs.map getUsize).take 6)) ∧
    ((cs.map getUsize).take 6).length = 6 := by
  have hpa : parse_args a k (prog :: sysnoStr :: rest) = .ok (n, (cs.map getUsize).take 6) := by
    simp only [parse_args]
    rw [hn]
    simp only [hk, if_true]
    rw [hcs]
  constructor
  · unfold cliRun
    rw [hpa]
  · have hc : cs.length = rest.length := castAll_length a rest 0 cs hcs
    simp only [List.length_take, List.length_map]
    omega

/-- Witness for C7: seven typed CLI tokens after the syscall number; only
the first six cast words reach the call. -/
theorem cli_truncates_to_six_witness :
    cliRun (fun _ => 100) (fun n => n == 1) (fun _ _ => .ok 0)
      ["prog", "1", "s:a", "n:1", "n:2", "n:3", "n:4", "n:5", "n:6"]
      = .ok (1, [100, 1, 2, 3, 4, 5], .ok 0) := by
  have h := cli_truncates_to_six (fun _ => 100) (fun n => n == 1) (fun _ _ => .ok 0)
    "prog" "1" ["s:a", "n:1", "n:2", "n:3", "n:4", "n:5", "n:6"] 1
    [CastArg.string 100, CastArg.u64 1, CastArg.u64 2, CastArg.u64 3, CastArg.u64 4,
      CastArg.u64 5, CastArg.u64 6]
    (by decide) rfl (by decide) (by decide)
  exact h.1.trans (by decide)

/-! ## Claim C10 -/

/-- If a prefix of CLI tokens casts successfully and the next token
fails, the whole cast loop fails with that token's error (the loop
checks every token, in order, before any truncation). -/
theorem castAll_error_of_append (a : String → Nat) (bad : String) (e0 : String) :
    ∀ (good : List String) (i : Nat) (cs : List CastArg),
    castAll a i good = .ok cs → castAll a (i + good.length) [bad] = .error e0 →
    castAll a i (good ++ [bad]) = .error e0 := by
  intro good
  induction good with
  | nil =>
    intro i cs _ h2
    simpa using h2
  | cons g good ih =>
    intro i cs h1 h2
    rw [List.cons_append]
    simp only [castAll] at h1 ⊢
    by_cases hcol : g.data.contains ':' = true
    · rw [if_pos hcol] at h1 ⊢
      cases hca : castArg a g with
      | error e => rw [hca] at h1; simp at h1
      | ok c =>
        rw [hca] at h1
        cases hcs : castAll a (i + 1) good with
        | error e => rw [hcs] at h1; simp at h1
        | ok cs' =>
          have hr : castAll a (i + 1) (good ++ [bad]) = .error e0 := by
            apply ih (i + 1) cs' hcs
            have heq : i + 1 + good.length = i + (g :: good).length := by
              simp [List.length_cons]
              omega
            rw [heq]
            exact h2
          show (match castAll a (i + 1) (good ++ [bad]) with
            | Except.error e => (Except.error e : Except String (List CastArg))
            | Except.ok cs => Except.ok (c :: cs)) = Except.error e0
          rw [hr]
    · rw [if_neg hcol] at h1; simp at h1

/-- C10: in CLI mode every supplied token is cast before the list is
truncated to six: a malformed token at position seven or later (after
six good tokens) still aborts the run with its cast error, and no
syscall is attempted (`cliRun` returns the error, producing no
invocation). -/
theorem late_malformed_arg_aborts (a : String → Nat) (k : Nat → Bool)
    (s : Nat → List Nat → Except Nat Nat) (prog sysnoStr : String)
    (good : List String) (bad : String) (n : Nat) (cs : List CastArg) (e0 : String)
    (hn : parseUsize sysnoStr.data = some n) (hk : k n = true)
    (_h6 : 6 ≤ good.length) (hgood : castAll a 0 good = .ok cs)
    (hbad : castAll a good.length [bad] = .error e0) :
    cliRun a k s (prog :: sysnoStr :: (good ++ [bad])) = .error e0 := by
  have hca : castAll a 0 (good ++ [bad]) = .error e0 := by
    apply castAll_error_of_append a bad e0 good 0 cs hgood
    simpa using hbad
  unfold cliRun
  have hpa : parse_args a k (prog :: sysnoStr :: (good ++ [bad])) = .error e0 := by
    simp only [parse_args]
    rw [hn]
    simp only [hk, if_true]
    rw [hca]
  rw [hpa]

/-- Witness for C10: six valid tokens followed by the malformed seventh
token `q:7`; the run aborts with the unknown-hint error even though the
seventh word would never have been passed to the call. -/
theorem late_malformed_arg_aborts_witness :
    cliRun (fun _ => 100) (fun n => n == 1) (fun _ _ => .ok 0)
      ["prog", "1", "n:1", "n:2", "n:3", "n:4", "n:5", "n:6", "q:7"]
      = .error (unknownHintMsg "q:7") :=
  late_malformed_arg_aborts (fun _ => 100) (fun n => n == 1) (fun _ _ => .ok 0) "prog" "1"
    ["n:1", "n:2", "n:3", "n:4", "n:5", "n:6"] "q:7" 1
    [CastArg.u64 1, CastArg.u64 2, CastArg.u64 3, CastArg.u64 4, CastArg.u64 5, CastArg.u64 6]
    (unknownHintMsg "q:7") (by decide) rfl (by decide) (by decide) (by decide)
